import Mathlib

/-!
Shallow embedding of the core of `ihashmap` (file `ihashmap/cache.py`):
the pipeline execution engine (`Pipeline`, `PipelineManager`) and the
cache facade (`Cache`: `set`, `get`, `update`, `search`) over an abstract
storage backend (`CacheProtocol`).

Python values stored in records are modelled by `PyVal`; a Python `dict`
record is an association list; `dict.get` (which returns `None` both for a
missing key and for a stored `None`) is `Record.pyGet`.  Fallible Python
code is modelled in `Except PyError`.

The modules `ihashmap/action.py`, `ihashmap/helpers.py` and
`ihashmap/index.py` are not part of the sources; the pieces of them the
claims depend on (`HookAction`, `match_query`, the index contract) are
modelled from the spec, and each such definition says so in its doc
comment.
-/

/-- A Python value as stored in a record field.  `PyVal.none` is Python's
`None`; strings and integers cover all values the claims exercise. -/
inductive PyVal where
  | none : PyVal
  | str : String → PyVal
  | int : Int → PyVal
deriving DecidableEq, Repr

/-- A record (Python `dict`): an association list from field name to value.
The first binding of a key is the visible one, matching `dict` lookup. -/
abbrev Record := List (String × PyVal)

/-- Python `d[k]` / successful lookup: the first binding of `k`, if any. -/
def Record.get? (r : Record) (k : String) : Option PyVal :=
  (r.find? (fun kv => kv.1 = k)).map (fun kv => kv.2)

/-- Python `d.get(k)`: returns `None` both when `k` is absent and when the
stored value is `None` — the two are indistinguishable to the caller. -/
def Record.pyGet (r : Record) (k : String) : PyVal :=
  (Record.get? r k).getD PyVal.none

/-- `Cache.PRIMARY_KEY`: the primary-key field name, `"_id"`. -/
def PRIMARY_KEY : String := "_id"

/-- Python exceptions raised by the embedded code.  The two
`invalidRecord*` constructors are the `ValueError`s raised by
`Cache.set`/`Cache.update` (the spec's `InvalidRecord`); `typeError` is the
`TypeError` raised when a list is extended with a non-iterable. -/
inductive PyError where
  | typeError : PyError
  | keyError : PyError
  | attributeError : PyError
  | invalidRecordMissing : String → PyError
  | invalidRecordMismatch : PyVal → String → PyError
deriving DecidableEq, Repr

/-- Is this error one of the spec's `InvalidRecord` errors (a `ValueError`
raised by the primary-key checks)? -/
def PyError.isInvalidRecord : PyError → Bool
  | .invalidRecordMissing _ => true
  | .invalidRecordMismatch _ _ => true
  | _ => false

/-- Modelled from the spec (`ihashmap/action.py` is not under `src/`):
an `HookAction` is a callable plus a priority and an optional collection
filter (`cache_name`); the callable itself is represented by an opaque
`tag`, since no claim invokes it. -/
structure HookAction where
  tag : String
  priority : Int
  cache_name : Option String
deriving DecidableEq, Repr

/-- The ordering `Pipeline.pipe_before` sorts by: `action.priority`. -/
def HookAction.le (a b : HookAction) : Prop := a.priority ≤ b.priority

instance : DecidableRel HookAction.le :=
  fun a b => inferInstanceAs (Decidable (a.priority ≤ b.priority))

instance : IsTotal HookAction HookAction.le :=
  ⟨fun a b => Int.le_total a.priority b.priority⟩

instance : IsTrans HookAction HookAction.le :=
  ⟨fun _ _ _ h1 h2 => Int.le_trans h1 h2⟩

/-- Python's `list.sort(key=lambda action: action.priority)` is a stable
sort by priority; any stable sort computes the same list, here
`List.insertionSort` (which keeps the earlier of two tied elements first).
-/
def sortActions (l : List HookAction) : List HookAction :=
  List.insertionSort HookAction.le l

/-- `Pipeline` from `ihashmap/cache.py`: its own before/after action lists
(`_pipe_before` / `_pipe_after`) and an optional parent pipeline. -/
inductive Pipeline where
  | mk : List HookAction → List HookAction → Option Pipeline → Pipeline

/-- The pipeline's own `_pipe_before` list. -/
def Pipeline.ownBefore : Pipeline → List HookAction
  | .mk b _ _ => b

/-- The pipeline's own `_pipe_after` list. -/
def Pipeline.ownAfter : Pipeline → List HookAction
  | .mk _ a _ => a

/-- The pipeline's `parent_pipe`. -/
def Pipeline.parent : Pipeline → Option Pipeline
  | .mk _ _ p => p

/-- `Pipeline.pipe_before` exactly as written in the source:

    pipe = []
    if self.parent_pipe is not None:
        pipe += self.parent_pipe.pipe_before
    pipe += self._pipe_before
    pipe.sort(key=lambda action: action.priority)
    return pipe

`self.parent_pipe.pipe_before` is a *bound method object* (the call
parentheses are missing), and `list += method` raises
`TypeError: 'method' object is not iterable`.  So with a parent the
function raises; without one it returns the own list stably sorted by
priority. -/
def Pipeline.pipe_before : Pipeline → Except PyError (List HookAction)
  | .mk own _ par =>
    match par with
    | some _ => .error .typeError
    | none => .ok (sortActions own)

/-- `Pipeline.pipe_after`, same shape (and same missing call parentheses
on `self.parent_pipe.pipe_after`) as `pipe_before`. -/
def Pipeline.pipe_after : Pipeline → Except PyError (List HookAction)
  | .mk _ own par =>
    match par with
    | some _ => .error .typeError
    | none => .ok (sortActions own)

/-- `Pipeline.wrap_before`, as the trace of actions it executes:

    for action in self.pipe_before():
        if action.cache_name in [None, ctx.name]:
            action(ctx)

The result is the ordered list of actions that run for a context whose
collection name is `ctxName`. -/
def Pipeline.wrapBeforeTrace (p : Pipeline) (ctxName : String) :
    Except PyError (List HookAction) := do
  let pipe ← p.pipe_before
  return pipe.filter
    (fun a => decide (a.cache_name = Option.none ∨ a.cache_name = some ctxName))

/-- A reference storage backend satisfying the `CacheProtocol` contract:
a finite association list from `(collection name, key)` to the stored
record.  The earliest binding of a pair is the visible one. -/
structure Store where
  data : List ((String × String) × Record)
deriving DecidableEq, Repr

/-- Backend `protocol.get(name, key)` without a default: the stored
record, or Python `None` (here `Option.none`) when absent. -/
def Store.get? (st : Store) (name key : String) : Option Record :=
  (st.data.find? (fun e => e.1 = (name, key))).map (fun e => e.2)

/-- Backend `protocol.keys(name)`: every key stored under collection
`name`, in storage order. -/
def Store.keys (st : Store) (name : String) : List String :=
  (st.data.filter (fun e => decide (e.1.1 = name))).map (fun e => e.1.2)

/-- Backend `protocol.set(name, key, value)`: bind `(name, key)` to
`value`, replacing any previous binding. -/
def Store.setKV (st : Store) (name key : String) (value : Record) : Store :=
  ⟨((name, key), value) :: st.data.filter (fun e => decide (e.1 ≠ (name, key)))⟩

/-- Backend `protocol.update(name, key, value)`: merge `value` into the
stored record (fields of `value` win), creating the record if absent. -/
def Store.updateKV (st : Store) (name key : String) (value : Record) : Store :=
  match st.get? name key with
  | some old =>
    st.setKV name key (value ++ old.filter (fun kv => (Record.get? value kv.1).isNone))
  | none => st.setKV name key value

/-- `Cache.set` from the source:

    if value.get(self.PRIMARY_KEY) is None:
        raise ValueError(...)            # primary key not found
    if value.get(self.PRIMARY_KEY) is not None and value[self.PRIMARY_KEY] != key:
        raise ValueError(...)            # primary key mismatch
    return self.protocol.set(name, key, value)

`value.get(PRIMARY_KEY) is None` is `Record.pyGet value PRIMARY_KEY =
PyVal.none` (missing field and stored `None` both hit the first branch).
`Cache.PIPELINE` holds no registered hooks, so the `set` pipeline wrapper
reduces to this body. -/
def Cache.set (st : Store) (name key : String) (value : Record) :
    Except PyError Store :=
  if Record.pyGet value PRIMARY_KEY = PyVal.none then
    .error (.invalidRecordMissing PRIMARY_KEY)
  else if Record.pyGet value PRIMARY_KEY ≠ PyVal.str key then
    .error (.invalidRecordMismatch (Record.pyGet value PRIMARY_KEY) key)
  else
    .ok (st.setKV name key value)

/-- `Cache.get` from the source: `return self.protocol.get(name, key,
default)` (no primary-key validation on read; the reference backend
returns `default` when the key is absent). -/
def Cache.get (st : Store) (name key : String) (default : Option Record) :
    Option Record :=
  match st.get? name key with
  | some r => some r
  | none => default

/-- `Cache.update` from the source:

    if value.get(self.PRIMARY_KEY) is not None and value.get(self.PRIMARY_KEY) != key:
        raise ValueError(...)            # primary key mismatch
    return self.protocol.update(name, key, value)

Note the guard: when `value.get(PRIMARY_KEY)` *is* `None` — the field is
missing, or present with value `None` — the mismatch check is skipped. -/
def Cache.update (st : Store) (name key : String) (value : Record) :
    Except PyError Store :=
  if Record.pyGet value PRIMARY_KEY ≠ PyVal.none ∧
      Record.pyGet value PRIMARY_KEY ≠ PyVal.str key then
    .error (.invalidRecordMismatch (Record.pyGet value PRIMARY_KEY) key)
  else
    .ok (st.updateKV name key value)

/-- A live `Cache` object: an allocation identity (`objId`, standing for
the Python object's identity) and the backend bound by `__init__`.  `P` is
the backend type. -/
structure CacheInst (P : Type) where
  objId : Nat
  protocol : P
deriving DecidableEq, Repr

/-- One `Cache(protocol)` construction call, from the source:

    def __new__(cls, protocol):
        if cls.__INSTANCE__ is None:
            cls.__INSTANCE__ = super().__new__(cls)
        return cls.__INSTANCE__

    def __init__(self, protocol):
        self.protocol = protocol

`state` is `cls.__INSTANCE__` before the call; `freshId` is the identity a
newly allocated object would get.  Python always runs `__init__` on the
object `__new__` returns, so the returned (and stored) instance has
`protocol := p` regardless of `state`. -/
def Cache.construct (P : Type) (state : Option (CacheInst P)) (freshId : Nat)
    (p : P) : Option (CacheInst P) × CacheInst P :=
  let inst : CacheInst P :=
    match state with
    | some i => i
    | none => ⟨freshId, p⟩
  let inst' : CacheInst P := { inst with protocol := p }
  (some inst', inst')

/-- A search-query value: either a plain value compared for equality, or a
predicate (Python callable) applied to the record's field value.  The
`tag` names the callable; the claims never compare predicates. -/
inductive QVal where
  | val : PyVal → QVal
  | pred : String → (PyVal → Bool) → QVal

/-- A search query, Python `dict` from field name to value-or-predicate. -/
abbrev Query := List (String × QVal)

/-- The field names of a query (the keys of the `dict`). -/
def queryKeys (q : Query) : List String := q.map (fun kv => kv.1)

/-- Does the record satisfy one `field: expected` entry of a query?
Modelled from the spec (`ihashmap/helpers.py` is not under `src/`):
a callable expected value is applied to the record's value for that field
(missing field ↦ `None`) and must return truthy; otherwise the record's
value must equal the expected value exactly. -/
def matchField (value : Record) (kv : String × QVal) : Bool :=
  match kv.2 with
  | .val v => decide (Record.pyGet value kv.1 = v)
  | .pred _ f => f (Record.pyGet value kv.1)

/-- Modelled from the spec (`ihashmap/helpers.py` is not under `src/`):
`match_query(value, query)` returns `[value]` when every field of the
query is satisfied by the record, else `[]` — a record matches the whole
query only when every field in it is satisfied. -/
def match_query (value : Record) (q : Query) : List Record :=
  if q.all (fun kv => matchField value kv) then [value] else []

/-- Modelled from the spec (`ihashmap/index.py` is not under `src/`): the
index contract's view of one index — `keys` is what `index.get_keys()`
returns, the field names the index covers. -/
structure SIndex where
  keys : List String

/-- The per-index match score computed inline in `Cache.search`:

    matched_keys = set(index.get_keys()).intersection(search_query)
    matched_percentage = len(matched_keys) / (len(search_query) or 1)
    index_match.append(
        matched_percentage
        if len(index.get_keys()) == 1 or matched_keys - {self.PRIMARY_KEY}
        else 0)
-/
def indexScore (idx : SIndex) (q : Query) : ℚ :=
  let matched_keys : Finset String := idx.keys.toFinset ∩ (queryKeys q).toFinset
  let matched_percentage : ℚ :=
    (matched_keys.card : ℚ) / (if q.length = 0 then 1 else (q.length : ℚ))
  if idx.keys.length = 1 ∨ (matched_keys \ {PRIMARY_KEY}).Nonempty then
    matched_percentage
  else 0

/-- The fetch loop at the end of `Cache.search`:

    result = []
    for value in matched:
        entity = self.protocol.get(name, value[self.PRIMARY_KEY])
        result += match_query(entity, ...)
    return result

`value[self.PRIMARY_KEY]` raises `KeyError` on a stub without the primary
key; fetching a vanished or non-string key yields `None`, which the
record-matching step cannot process (per the spec, a failed fetch aborts
the whole search). -/
def searchFetch (st : Store) (name : String) (q : Query) :
    List Record → Except PyError (List Record)
  | [] => .ok []
  | stub :: rest =>
    match Record.get? stub PRIMARY_KEY with
    | Option.none => .error .keyError
    | some pkv =>
      match pkv with
      | .str s =>
        match st.get? name s with
        | some entity => do
          let restResult ← searchFetch st name q rest
          return match_query entity q ++ restResult
        | Option.none => .error .attributeError
      | _ => .error .attributeError

/-- `Cache.search` from the source.  `indexes` is what
`Index.find_index_for_cache(name)` returns for this collection, and
`combine` is `Index.combine` (both from the external index contract; the
combination is only consulted when hit indexes exist).  The returned
`Bool` records whether the complete-index-miss performance warning was
logged. -/
def Cache.search (st : Store) (indexes : List SIndex)
    (combine : String → List SIndex → Query → List Record × List String)
    (name : String) (q : Query) : Bool × Except PyError (List Record) :=
  let index_match := indexes.map (fun i => indexScore i q)
  let hit_indexes :=
    ((indexes.zip index_match).filter (fun p => decide (0 < p.2))).map
      (fun p => p.1)
  let combined := combine name hit_indexes q
  let combined_keys := combined.2
  let rest_query := q.filter (fun kv => decide (kv.1 ∉ combined_keys))
  let warned := hit_indexes.isEmpty
  let matched :=
    if hit_indexes.isEmpty then
      (st.keys name).map (fun k => ([(PRIMARY_KEY, PyVal.str k)] : Record))
    else combined.1
  (warned,
    searchFetch st name (if hit_indexes.isEmpty then q else rest_query) matched)

/-- A hook registered on the `get` pipeline, for the frame property about
`search`: after-hooks may transform the result of `Cache.get`.  `tag`
names the callable. -/
structure GetHook where
  tag : String
  priority : Int
  cache_name : Option String
  transform : Option Record → Option Record

/-- The ordering the `get` pipeline sorts its hooks by. -/
def GetHook.le (a b : GetHook) : Prop := a.priority ≤ b.priority

instance : DecidableRel GetHook.le :=
  fun a b => inferInstanceAs (Decidable (a.priority ≤ b.priority))

/-- `Cache.get` as routed through its pipeline when after-hooks are
registered on the `get` pipeline of `Cache` itself (no parent): the hooks
run in stable priority order, filtered by collection name, each able to
replace the result. -/
def Cache.getPipelined (hooks : List GetHook) (st : Store) (name key : String)
    (default : Option Record) : Option Record :=
  ((List.insertionSort GetHook.le hooks).filter
      (fun h => decide (h.cache_name = Option.none ∨ h.cache_name = some name))).foldl
    (fun r h => h.transform r) (Cache.get st name key default)

/-- `Cache.search` in an environment that also carries the hooks
registered on the `get` pipeline.  The body of `search` fetches every
candidate with `self.protocol.get(name, ...)` — the raw backend — so the
hooks are in scope (via `self`) but never consulted. -/
def Cache.searchEnv (getHooks : List GetHook) (st : Store)
    (indexes : List SIndex)
    (combine : String → List SIndex → Query → List Record × List String)
    (name : String) (q : Query) : Bool × Except PyError (List Record) :=
  Cache.search st indexes combine name q

/-- Spec-side formula for the index match score, following the spec's
words: score = (number of query fields the index covers) / (total query
fields, or 1 if the query is empty); forced to 0 unless the index covers
exactly one field or the coverage-query intersection contains a field
other than the primary key.  Field sets are genuine sets here. -/
def specMatchScore (idx : SIndex) (q : Query) : ℚ :=
  let covered : Finset String := idx.keys.toFinset ∩ (queryKeys q).toFinset
  let total : ℚ := if q.isEmpty then 1 else ((queryKeys q).toFinset.card : ℚ)
  if idx.keys.toFinset.card = 1 ∨ ∃ k ∈ covered, k ≠ PRIMARY_KEY then
    (covered.card : ℚ) / total
  else 0

/-- The slow-path result of `search`: every key of the collection is
enumerated from the backend, and each full record is matched against the
query. -/
def fullScanMatch (st : Store) (name : String) (q : Query) : List Record :=
  (st.keys name).flatMap
    (fun k =>
      match st.get? name k with
      | some e => match_query e q
      | Option.none => [])

/-- Every record stored in the collection, in storage order. -/
def allValues (st : Store) (name : String) : List Record :=
  (st.keys name).filterMap (fun k => st.get? name k)

/-- Every key the backend enumerates for a collection is present: its
lookup succeeds. -/
theorem Store.get?_isSome_of_mem_keys (st : Store) (name k : String)
    (h : k ∈ st.keys name) : (st.get? name k).isSome := by
  unfold Store.keys at h
  obtain ⟨e, he, hk⟩ := List.mem_map.mp h
  obtain ⟨hed, hname⟩ := List.mem_filter.mp he
  unfold Store.get?
  have hfind : (st.data.find? (fun e => decide (e.1 = (name, k)))).isSome := by
    rw [List.find?_isSome]
    refine ⟨e, hed, ?_⟩
    simp only [decide_eq_true_eq] at hname ⊢
    cases e with
    | mk key val =>
      cases key with
      | mk c k' =>
        simp only at hname hk
        simp [hname, hk]
  obtain ⟨x, hx⟩ := Option.isSome_iff_exists.mp hfind
  rw [hx]
  rfl

/-- Inserting an action into a sorted list leaves the sublist of any fixed
priority intact (stability of the insertion step): skipped elements have
strictly smaller priority. -/
theorem filter_priority_orderedInsert (v : Int) (a : HookAction)
    (l : List HookAction) :
    (List.orderedInsert HookAction.le a l).filter
        (fun x => decide (x.priority = v)) =
      if a.priority = v then
        a :: l.filter (fun x => decide (x.priority = v))
      else l.filter (fun x => decide (x.priority = v)) := by
  induction l with
  | nil =>
    by_cases hav : a.priority = v <;>
      simp [List.orderedInsert, List.filter_cons, hav]
  | cons b t ih =>
    rw [List.orderedInsert]
    by_cases hab : HookAction.le a b
    · rw [if_pos hab]
      by_cases hav : a.priority = v <;> simp [List.filter_cons, hav]
    · rw [if_neg hab]
      have hba : b.priority < a.priority := by
        unfold HookAction.le at hab
        omega
      by_cases hav : a.priority = v
      · have hbv : ¬b.priority = v := by omega
        simp [List.filter_cons, hav, hbv, ih]
      · by_cases hbv : b.priority = v <;>
          simp [List.filter_cons, hav, hbv, ih]

/-- The stable sort used by `Pipeline.pipe_before` keeps, for every
priority value, the actions of that priority in their registration
order. -/
theorem sortActions_filter_priority (v : Int) (l : List HookAction) :
    (sortActions l).filter (fun x => decide (x.priority = v)) =
      l.filter (fun x => decide (x.priority = v)) := by
  induction l with
  | nil => rfl
  | cons a t ih =>
    unfold sortActions at ih ⊢
    rw [List.insertionSort, filter_priority_orderedInsert, ih]
    by_cases hav : a.priority = v <;> simp [List.filter_cons, hav]

/-- The sorted pipe is ascending in priority. -/
theorem sortActions_sorted (l : List HookAction) :
    List.Sorted HookAction.le (sortActions l) :=
  List.sorted_insertionSort HookAction.le l

/-- The sorted pipe is a permutation of the registered actions. -/
theorem sortActions_perm (l : List HookAction) : List.Perm (sortActions l) l :=
  List.perm_insertionSort HookAction.le l

/-- **C1** (code bug evidence).  The claim says a pipeline with a parent
resolves to the parent's recursively resolved hook block followed by its
own sorted hooks, for both positions.  In the source,
`Pipeline.pipe_before` does `pipe += self.parent_pipe.pipe_before` — the
call parentheses are missing, the right-hand side is a bound method
object, and `list += <method>` raises `TypeError: 'method' object is not
iterable`.  So whenever a parent pipeline exists (as for every `Cache`
subclass, whose `__init_subclass__` parents each pipeline), resolution
raises instead of returning any hook list, contradicting both the claim
and `wrap_before`'s own docstring.  Evaluated here on the smallest
failing inputs. -/
theorem pipeline_parent_resolution_raises_typeerror :
    Pipeline.pipe_before
        (Pipeline.mk [⟨"child_before", 1, Option.none⟩] []
          (some (Pipeline.mk [⟨"parent_before", 1, Option.none⟩] []
            Option.none))) =
      .error .typeError ∧
    Pipeline.pipe_after
        (Pipeline.mk [] [⟨"child_after", 1, Option.none⟩]
          (some (Pipeline.mk [] [⟨"parent_after", 1, Option.none⟩]
            Option.none))) =
      .error .typeError ∧
    Pipeline.wrapBeforeTrace
        (Pipeline.mk [] [] (some (Pipeline.mk [] [] Option.none))) "users" =
      .error .typeError :=
  ⟨rfl, rfl, rfl⟩

/-- **C6.** Within one Pipeline's own hook list (a pipeline without a
parent, as `Cache`'s own pipelines are), actions execute in ascending
priority order and ties keep registration order: `pipe_before`/`pipe_after`
return the own list stably sorted by priority — sorted, a permutation of
the registered actions, and preserving registration order within every
priority value — and hooks registered with priorities `[3, 1, 2]` come out
in order `[1, 2, 3]`, while equal priorities stay in registration
order. -/
theorem pipeline_priority_stable_order :
    (∀ own after, Pipeline.pipe_before (Pipeline.mk own after Option.none) =
        .ok (sortActions own)) ∧
    (∀ own after, Pipeline.pipe_after (Pipeline.mk own after Option.none) =
        .ok (sortActions after)) ∧
    (∀ l, List.Sorted HookAction.le (sortActions l)) ∧
    (∀ l, List.Perm (sortActions l) l) ∧
    (∀ (l : List HookAction) (v : Int),
      (sortActions l).filter (fun x => decide (x.priority = v)) =
        l.filter (fun x => decide (x.priority = v))) ∧
    sortActions
        [⟨"h3", 3, Option.none⟩, ⟨"h1", 1, Option.none⟩,
          ⟨"h2", 2, Option.none⟩] =
      [⟨"h1", 1, Option.none⟩, ⟨"h2", 2, Option.none⟩,
        ⟨"h3", 3, Option.none⟩] ∧
    sortActions [⟨"first", 1, Option.none⟩, ⟨"second", 1, Option.none⟩] =
      [⟨"first", 1, Option.none⟩, ⟨"second", 1, Option.none⟩] :=
  ⟨fun _ _ => rfl, fun _ _ => rfl, sortActions_sorted, sortActions_perm,
    fun l v => sortActions_filter_priority v l, by decide, by decide⟩

/-- **C7.** In a pipeline execution (`wrap_before`), an action whose
collection filter is set only executes when the context's collection name
equals the filter, and an action with filter `None` executes whenever it
is in the resolved pipe: the executed trace is exactly the resolved pipe
filtered by `action.cache_name in [None, ctx.name]`. -/
theorem action_collection_filter (p : Pipeline) (n : String)
    (pipe l : List HookAction)
    (hp : p.pipe_before = .ok pipe) (ht : p.wrapBeforeTrace n = .ok l) :
    (∀ a ∈ l, a.cache_name = Option.none ∨ a.cache_name = some n) ∧
    (∀ a ∈ pipe, a.cache_name = Option.none → a ∈ l) ∧
    (∀ a c, a ∈ pipe → a.cache_name = some c → c ≠ n → a ∉ l) := by
  have hcomp : p.wrapBeforeTrace n =
      .ok (pipe.filter
        (fun a => decide (a.cache_name = Option.none ∨
          a.cache_name = some n))) := by
    unfold Pipeline.wrapBeforeTrace
    rw [hp]
    rfl
  rw [hcomp] at ht
  have hl := Except.ok.inj ht
  subst hl
  refine ⟨?_, ?_, ?_⟩
  · intro a ha
    have := List.of_mem_filter ha
    simpa using this
  · intro a ha hnone
    exact List.mem_filter.mpr ⟨ha, by simp [hnone]⟩
  · intro a c _ hc hcn hmem
    have := List.of_mem_filter hmem
    simp [hc] at this
    exact hcn this

/-- Witness for C7 at a concrete pipeline: a hook filtered to `"users"`
does not run for collection `"orders"`, the unfiltered hook does. -/
theorem action_collection_filter_witness :
    Pipeline.pipe_before
        (Pipeline.mk [⟨"u", 1, some "users"⟩, ⟨"all", 1, Option.none⟩] []
          Option.none) =
      .ok [⟨"u", 1, some "users"⟩, ⟨"all", 1, Option.none⟩] ∧
    Pipeline.wrapBeforeTrace
        (Pipeline.mk [⟨"u", 1, some "users"⟩, ⟨"all", 1, Option.none⟩] []
          Option.none) "orders" =
      .ok [⟨"all", 1, Option.none⟩] ∧
    ((∀ a ∈ [(⟨"all", 1, Option.none⟩ : HookAction)],
        a.cache_name = Option.none ∨ a.cache_name = some "orders") ∧
      (∀ a ∈ [(⟨"u", 1, some "users"⟩ : HookAction),
          ⟨"all", 1, Option.none⟩],
        a.cache_name = Option.none → a ∈ [(⟨"all", 1, Option.none⟩ : HookAction)]) ∧
      (∀ a c, a ∈ [(⟨"u", 1, some "users"⟩ : HookAction),
          ⟨"all", 1, Option.none⟩] → a.cache_name = some c → c ≠ "orders" →
        a ∉ [(⟨"all", 1, Option.none⟩ : HookAction)])) :=
  ⟨rfl, rfl,
    action_collection_filter
      (Pipeline.mk [⟨"u", 1, some "users"⟩, ⟨"all", 1, Option.none⟩] []
        Option.none)
      "orders"
      [⟨"u", 1, some "users"⟩, ⟨"all", 1, Option.none⟩]
      [⟨"all", 1, Option.none⟩] rfl rfl⟩

/-- **C4.** `Cache.set` fails with an `InvalidRecord` error (`ValueError`)
when the primary-key field is absent from the value, and when it is
present but its value differs from `key`; when it is present and equal to
`key`, it delegates the unmodified value to the backend's set. -/
theorem cache_set_primary_key_validation (st : Store) (name key : String)
    (value : Record) :
    (Record.get? value PRIMARY_KEY = Option.none →
      Cache.set st name key value =
        .error (.invalidRecordMissing PRIMARY_KEY)) ∧
    (∀ pv, Record.get? value PRIMARY_KEY = some pv → pv ≠ PyVal.str key →
      ∃ e, Cache.set st name key value = .error e ∧
        e.isInvalidRecord = true) ∧
    (Record.get? value PRIMARY_KEY = some (PyVal.str key) →
      Cache.set st name key value = .ok (st.setKV name key value)) := by
  refine ⟨?_, ?_, ?_⟩
  · intro h
    simp [Cache.set, Record.pyGet, h]
  · intro pv hpv hne
    by_cases hn : pv = PyVal.none
    · subst hn
      exact ⟨.invalidRecordMissing PRIMARY_KEY,
        by simp [Cache.set, Record.pyGet, hpv], rfl⟩
    · refine ⟨.invalidRecordMismatch pv key, ?_, rfl⟩
      simp [Cache.set, Record.pyGet, hpv, hn, hne]
  · intro h
    simp [Cache.set, Record.pyGet, h]

/-- Witness for C4: a valid record is delegated unmodified; a record
without the primary-key field is rejected; a record with a mismatching
primary key is rejected. -/
theorem cache_set_primary_key_validation_witness :
    Record.get? [(PRIMARY_KEY, PyVal.str "1")] PRIMARY_KEY =
      some (PyVal.str "1") ∧
    Cache.set ⟨[]⟩ "users" "1" [(PRIMARY_KEY, PyVal.str "1")] =
      .ok (Store.setKV ⟨[]⟩ "users" "1" [(PRIMARY_KEY, PyVal.str "1")]) ∧
    Record.get? [("name", PyVal.str "bob")] PRIMARY_KEY = Option.none ∧
    Cache.set ⟨[]⟩ "users" "1" [("name", PyVal.str "bob")] =
      .error (.invalidRecordMissing PRIMARY_KEY) ∧
    PyVal.str "2" ≠ PyVal.str "1" ∧
    (∃ e, Cache.set ⟨[]⟩ "users" "1" [(PRIMARY_KEY, PyVal.str "2")] =
      .error e ∧ e.isInvalidRecord = true) :=
  ⟨rfl,
    (cache_set_primary_key_validation ⟨[]⟩ "users" "1"
      [(PRIMARY_KEY, PyVal.str "1")]).2.2 rfl,
    rfl,
    (cache_set_primary_key_validation ⟨[]⟩ "users" "1"
      [("name", PyVal.str "bob")]).1 rfl,
    by decide,
    (cache_set_primary_key_validation ⟨[]⟩ "users" "1"
      [(PRIMARY_KEY, PyVal.str "2")]).2.1 (PyVal.str "2") rfl (by decide)⟩

/-- Counterexample to **C8** as stated: in the record
`[("_id", None)]` the primary-key field *is present* and its value `None`
*differs* from the key `"1"`, yet `Cache.update` succeeds and delegates —
the guard `value.get(PRIMARY_KEY) is not None` conflates a stored `None`
with a missing field and skips the mismatch check. -/
theorem cache_update_none_pk_counterexample :
    Record.get? [(PRIMARY_KEY, PyVal.none)] PRIMARY_KEY = some PyVal.none ∧
    PyVal.none ≠ PyVal.str "1" ∧
    Cache.update ⟨[]⟩ "users" "1" [(PRIMARY_KEY, PyVal.none)] =
      .ok (Store.updateKV ⟨[]⟩ "users" "1" [(PRIMARY_KEY, PyVal.none)]) :=
  ⟨rfl, by decide, rfl⟩

/-- **C8 (amended).** `Cache.update` fails with the same
primary-key-mismatch error as `Cache.set` when `value.get(PRIMARY_KEY)`
is neither `None` nor equal to `key`; it succeeds and delegates to the
backend's update when the primary-key field is missing — and likewise
when the looked-up value is `None` or equals `key`. -/
theorem cache_update_primary_key_check (st : Store) (name key : String)
    (value : Record) :
    (∀ pv, Record.get? value PRIMARY_KEY = some pv → pv ≠ PyVal.none →
      pv ≠ PyVal.str key →
      Cache.update st name key value =
        .error (.invalidRecordMismatch pv key) ∧
      Cache.set st name key value =
        .error (.invalidRecordMismatch pv key)) ∧
    (Record.get? value PRIMARY_KEY = Option.none →
      Cache.update st name key value = .ok (st.updateKV name key value)) ∧
    (Record.pyGet value PRIMARY_KEY = PyVal.none ∨
        Record.pyGet value PRIMARY_KEY = PyVal.str key →
      Cache.update st name key value = .ok (st.updateKV name key value)) := by
  refine ⟨?_, ?_, ?_⟩
  · intro pv hpv hn hne
    constructor
    · simp [Cache.update, Record.pyGet, hpv, hn, hne]
    · simp [Cache.set, Record.pyGet, hpv, hn, hne]
  · intro h
    simp [Cache.update, Record.pyGet, h]
  · intro h
    rcases h with h | h <;> simp [Cache.update, h]

/-- Witness for C8 (amended): a partial record without the primary key is
accepted; a mismatching non-`None` primary key is rejected by `update`
and by `set` with the same error. -/
theorem cache_update_primary_key_check_witness :
    Record.get? [("age", PyVal.int 30)] PRIMARY_KEY = Option.none ∧
    Cache.update ⟨[]⟩ "users" "1" [("age", PyVal.int 30)] =
      .ok (Store.updateKV ⟨[]⟩ "users" "1" [("age", PyVal.int 30)]) ∧
    PyVal.str "2" ≠ PyVal.none ∧
    PyVal.str "2" ≠ PyVal.str "1" ∧
    (Cache.update ⟨[]⟩ "users" "1" [(PRIMARY_KEY, PyVal.str "2")] =
        .error (.invalidRecordMismatch (PyVal.str "2") "1") ∧
      Cache.set ⟨[]⟩ "users" "1" [(PRIMARY_KEY, PyVal.str "2")] =
        .error (.invalidRecordMismatch (PyVal.str "2") "1")) :=
  ⟨rfl,
    (cache_update_primary_key_check ⟨[]⟩ "users" "1"
      [("age", PyVal.int 30)]).2.1 rfl,
    by decide, by decide,
    (cache_update_primary_key_check ⟨[]⟩ "users" "1"
      [(PRIMARY_KEY, PyVal.str "2")]).1 (PyVal.str "2") rfl (by decide)
      (by decide)⟩

/-- Counterexample to **C5** as stated: the second construction call does
return the same instance (`objId` 0 is preserved), but it does *not*
leave the originally bound backend in place — Python re-runs `__init__`
on the returned instance, so the backend is rebound from `1` to `2`. -/
theorem cache_singleton_counterexample :
    (Cache.construct Nat Option.none 0 1).2 = ⟨0, 1⟩ ∧
    (Cache.construct Nat (some ⟨0, 1⟩) 7 2).2.objId = 0 ∧
    (Cache.construct Nat (some ⟨0, 1⟩) 7 2).2.protocol = 2 ∧
    (Cache.construct Nat (some ⟨0, 1⟩) 7 2).1 = some ⟨0, 2⟩ ∧
    (2 : Nat) ≠ 1 :=
  ⟨rfl, rfl, rfl, rfl, by decide⟩

/-- **C5 (amended).** `Cache` is a process-wide singleton: a construction
call with an existing instance returns that same instance (same
allocation identity, no new object), but because `__init__` runs on every
construction call, the instance's backend is rebound to the newly supplied
argument rather than keeping the original one; a first construction
allocates and binds the given backend. -/
theorem cache_singleton_rebinds_protocol (P : Type) (i : CacheInst P)
    (freshId : Nat) (p' : P) :
    Cache.construct P (some i) freshId p' =
      (some { i with protocol := p' }, { i with protocol := p' }) ∧
    (Cache.construct P (some i) freshId p').2.objId = i.objId ∧
    ∀ p0 : P, Cache.construct P Option.none freshId p0 =
      (some ⟨freshId, p0⟩, ⟨freshId, p0⟩) :=
  ⟨rfl, rfl, fun _ => rfl⟩

/-- Setting a key then reading it back from the reference backend yields
the stored record. -/
theorem Store.get?_setKV_self (st : Store) (name key : String)
    (value : Record) : (st.setKV name key value).get? name key = some value := by
  simp [Store.setKV, Store.get?, List.find?_cons_of_pos]

/-- **C9.** For a valid record (`value[PRIMARY_KEY] == key`), `set`
delegates to the backend and a subsequent `get` of the same collection
and key returns a record equal to the one stored (round-trip). -/
theorem set_get_roundtrip (st : Store) (name key : String) (value : Record)
    (d : Option Record)
    (h : Record.get? value PRIMARY_KEY = some (PyVal.str key)) :
    Cache.set st name key value = .ok (st.setKV name key value) ∧
    Cache.get (st.setKV name key value) name key d = some value := by
  constructor
  · simp [Cache.set, Record.pyGet, h]
  · simp [Cache.get, Store.get?_setKV_self]

/-- Witness for C9 at a concrete record and key. -/
theorem set_get_roundtrip_witness :
    Record.get? [(PRIMARY_KEY, PyVal.str "1"), ("name", PyVal.str "ana")]
      PRIMARY_KEY = some (PyVal.str "1") ∧
    (Cache.set ⟨[]⟩ "users" "1"
        [(PRIMARY_KEY, PyVal.str "1"), ("name", PyVal.str "ana")] =
      .ok (Store.setKV ⟨[]⟩ "users" "1"
        [(PRIMARY_KEY, PyVal.str "1"), ("name", PyVal.str "ana")]) ∧
    Cache.get
        (Store.setKV ⟨[]⟩ "users" "1"
          [(PRIMARY_KEY, PyVal.str "1"), ("name", PyVal.str "ana")])
        "users" "1" Option.none =
      some [(PRIMARY_KEY, PyVal.str "1"), ("name", PyVal.str "ana")]) :=
  ⟨rfl,
    set_get_roundtrip ⟨[]⟩ "users" "1"
      [(PRIMARY_KEY, PyVal.str "1"), ("name", PyVal.str "ana")]
      Option.none rfl⟩

/-- **C3.** For every index and query (with set-like index coverage and
`dict`-like query keys), the score computed inline in `Cache.search`
equals the spec's formula: covered-fields ∩ query-fields over total query
fields (1 for the empty query), forced to 0 unless the index covers
exactly one field or the intersection holds a field other than the
primary key. -/
theorem indexScore_matches_spec (idx : SIndex) (q : Query)
    (h1 : idx.keys.Nodup) (h2 : (queryKeys q).Nodup) :
    indexScore idx q = specMatchScore idx q := by
  simp only [indexScore, specMatchScore]
  have hlen : idx.keys.toFinset.card = idx.keys.length :=
    List.toFinset_card_of_nodup h1
  have hqlen : (queryKeys q).toFinset.card = (queryKeys q).length :=
    List.toFinset_card_of_nodup h2
  have hqk : (queryKeys q).length = q.length := List.length_map q _
  have hcond : (idx.keys.length = 1 ∨
      ((idx.keys.toFinset ∩ (queryKeys q).toFinset) \
        {PRIMARY_KEY}).Nonempty) ↔
      (idx.keys.toFinset.card = 1 ∨
        ∃ k ∈ idx.keys.toFinset ∩ (queryKeys q).toFinset,
          k ≠ PRIMARY_KEY) := by
    rw [hlen]
    apply or_congr Iff.rfl
    constructor
    · rintro ⟨k, hk⟩
      rw [Finset.mem_sdiff, Finset.mem_singleton] at hk
      exact ⟨k, hk.1, hk.2⟩
    · rintro ⟨k, hk, hkne⟩
      exact ⟨k, Finset.mem_sdiff.mpr ⟨hk, Finset.not_mem_singleton.mpr hkne⟩⟩
  have hdenom : (if q.length = 0 then (1 : ℚ) else (q.length : ℚ)) =
      (if q.isEmpty then (1 : ℚ) else ((queryKeys q).toFinset.card : ℚ)) := by
    cases q with
    | nil => simp
    | cons a t => simp [hqlen, hqk]
  rw [hdenom]
  by_cases hc : idx.keys.length = 1 ∨
      ((idx.keys.toFinset ∩ (queryKeys q).toFinset) \ {PRIMARY_KEY}).Nonempty
  · rw [if_pos hc, if_pos (hcond.mp hc)]
  · rw [if_neg hc, if_neg (fun hcr => hc (hcond.mpr hcr))]

/-- Witness for C3 at a concrete single-field index and one-field query:
the index covers the whole query, so both sides give score 1. -/
theorem indexScore_matches_spec_witness :
    (["age"] : List String).Nodup ∧
    (queryKeys [("age", QVal.val (PyVal.int 30))]).Nodup ∧
    indexScore ⟨["age"]⟩ [("age", QVal.val (PyVal.int 30))] =
      specMatchScore ⟨["age"]⟩ [("age", QVal.val (PyVal.int 30))] :=
  ⟨by decide, by decide,
    indexScore_matches_spec ⟨["age"]⟩ [("age", QVal.val (PyVal.int 30))]
      (by decide) (by decide)⟩

/-- **C10.** `search` fetches every candidate record straight from the
backend (`self.protocol.get`), not through the `get` pipeline: its result
is invariant under whatever hooks are registered on the `get` pipeline,
so those hooks neither run for these fetches nor alter the records search
examines or returns — while the same hooks do alter what a pipelined
`Cache.get` returns (demonstrated on a result-replacing hook). -/
theorem search_bypasses_get_pipeline :
    (∀ (hooks hooks' : List GetHook) (st : Store) (indexes : List SIndex)
      (combine : String → List SIndex → Query → List Record × List String)
      (name : String) (q : Query),
      Cache.searchEnv hooks st indexes combine name q =
        Cache.searchEnv hooks' st indexes combine name q) ∧
    Cache.getPipelined
        [⟨"alter", 1, Option.none, fun _ => some [("x", PyVal.int 1)]⟩]
        ⟨[]⟩ "users" "1" Option.none = some [("x", PyVal.int 1)] ∧
    Cache.get ⟨[]⟩ "users" "1" Option.none = Option.none :=
  ⟨fun _ _ _ _ _ _ _ => rfl, rfl, rfl⟩

/-- One step of the fetch loop on a full-scan stub: look the key up in the
backend and match the record against the query. -/
theorem searchFetch_cons_stub (st : Store) (name : String) (q : Query)
    (k : String) (rest : List Record) :
    searchFetch st name q (([(PRIMARY_KEY, PyVal.str k)] : Record) :: rest) =
      match st.get? name k with
      | some entity => do
          let restResult ← searchFetch st name q rest
          return match_query entity q ++ restResult
      | Option.none => .error .attributeError := rfl

/-- The fetch loop over full-scan stubs, when every enumerated key is
present in the backend, collects the per-key matches in order. -/
theorem searchFetch_stubs (st : Store) (name : String) (q : Query)
    (ks : List String) (hks : ∀ k ∈ ks, (st.get? name k).isSome) :
    searchFetch st name q
        (ks.map (fun k => ([(PRIMARY_KEY, PyVal.str k)] : Record))) =
      .ok (ks.flatMap (fun k =>
        match st.get? name k with
        | some e => match_query e q
        | Option.none => [])) := by
  induction ks with
  | nil => rfl
  | cons k t ih =>
    have ht : ∀ k' ∈ t, (st.get? name k').isSome := fun k' h' =>
      hks k' (List.mem_cons_of_mem _ h')
    obtain ⟨e, he⟩ :=
      Option.isSome_iff_exists.mp (hks k (List.mem_cons_self _ _))
    rw [List.map_cons, searchFetch_cons_stub, he, ih ht]
    simp [he]

/-- **C2.** When no index for the collection attains a score above zero,
`search` logs the performance warning and falls back to enumerating every
key of the collection from the backend, matching each full record against
the complete original query; in particular with an empty query the
full-scan result is every record in the collection. -/
theorem search_index_miss_full_scan (st : Store) (indexes : List SIndex)
    (combine : String → List SIndex → Query → List Record × List String)
    (name : String) (q : Query)
    (h : ∀ i ∈ indexes, ¬ 0 < indexScore i q) :
    Cache.search st indexes combine name q =
      (true, .ok (fullScanMatch st name q)) ∧
    (q = [] → fullScanMatch st name q = allValues st name) := by
  constructor
  · have hzip : indexes.zip (indexes.map (fun i => indexScore i q)) =
        indexes.map (fun i => (i, indexScore i q)) := by
      have := List.zip_map' id (fun i => indexScore i q) indexes
      simpa using this
    have hhit : ((indexes.zip
          (indexes.map (fun i => indexScore i q))).filter
            (fun p => decide (0 < p.2))).map (fun p => p.1) = [] := by
      rw [hzip]
      have hnil : (indexes.map (fun i => (i, indexScore i q))).filter
          (fun p => decide (0 < p.2)) = [] := by
        apply List.filter_eq_nil_iff.mpr
        intro p hp
        obtain ⟨i, hi, rfl⟩ := List.mem_map.mp hp
        simpa using h i hi
      rw [hnil]
      rfl
    simp only [Cache.search]
    rw [hhit]
    simp only [List.isEmpty_nil, if_pos, ite_true]
    rw [searchFetch_stubs st name q (st.keys name)
      (fun k hk => Store.get?_isSome_of_mem_keys st name k hk)]
    rfl
  · intro hq
    subst hq
    unfold fullScanMatch allValues
    have hgen : ∀ ks : List String,
        ks.flatMap (fun k =>
          match st.get? name k with
          | some e => match_query e ([] : Query)
          | Option.none => []) =
        ks.filterMap (fun k => st.get? name k) := by
      intro ks
      induction ks with
      | nil => rfl
      | cons k t ih =>
        cases hg : st.get? name k <;>
          rw [List.flatMap_cons, List.filterMap_cons, hg, ih] <;>
          simp [match_query]
    exact hgen _

/-- The concrete two-record store used by the C2 witness. -/
def missStore : Store :=
  ⟨[(("users", "1"), [(PRIMARY_KEY, PyVal.str "1")]),
    (("users", "2"), [(PRIMARY_KEY, PyVal.str "2")])]⟩

/-- Witness for C2: with no indexes and an empty query, `search` warns
and returns every record of the collection. -/
theorem search_index_miss_full_scan_witness :
    (∀ i ∈ ([] : List SIndex), ¬ 0 < indexScore i ([] : Query)) ∧
    (Cache.search missStore [] (fun _ _ _ => ([], [])) "users" [] =
        (true, .ok (fullScanMatch missStore "users" [])) ∧
      (([] : Query) = [] →
        fullScanMatch missStore "users" [] = allValues missStore "users")) ∧
    allValues missStore "users" =
      [[(PRIMARY_KEY, PyVal.str "1")], [(PRIMARY_KEY, PyVal.str "2")]] :=
  ⟨by simp,
    search_index_miss_full_scan missStore [] (fun _ _ _ => ([], []))
      "users" [] (by simp),
    rfl⟩
